import Mathlib

/-!
Verification of the Qtends e-commerce backend order workflow.

The document store is modelled as explicit lists of records; every handler
becomes a pure function from a request and a database state to a response
paired with the next database state.  A MongoDB transaction is modelled by
returning the original state unchanged on any abort path.  JavaScript
numbers are embedded as exact rationals; `x.toFixed(2)` becomes `round2`.
-/

namespace Qtends

/-- Rounding to two decimal places, the model of `+(x).toFixed(2)`.
By `round_eq` this is `(round (x * 100) : ℚ) / 100`. -/
def round2 (x : ℚ) : ℚ := (⌊x * 100 + 1 / 2⌋ : ℚ) / 100

/-- Shipping-fee policy from `order.controller.js`: flat 0 for now. -/
def calcShipping (_subtotal : ℚ) : ℚ := 0

/-- Tax policy from `order.controller.js`: 0% for now. -/
def calcTax (_subtotal : ℚ) : ℚ := 0

/-- A product document (`models/product.model.js`). -/
structure Product where
  id : ℕ
  title : String
  slug : String
  description : String := ""
  price : ℚ
  stock : ℤ
  images : List String := []
  category : Option ℕ := none
  subcategory : Option ℕ := none
  isActive : Bool := true
deriving Repr, DecidableEq

/-- One cart line (`models/cart.model.js`, `cartItemSchema`): a product
reference and a quantity (schema constrains `qty` with `min: 1`). -/
structure CartItem where
  product : ℕ
  qty : ℕ
deriving Repr, DecidableEq

/-- A cart document (`models/cart.model.js`): one per user. -/
structure Cart where
  user : ℕ
  items : List CartItem
deriving Repr, DecidableEq

/-- Order status lifecycle enum (`models/order.model.js`). -/
inductive OrderStatus where
  | pending
  | paid
  | shipped
  | delivered
deriving Repr, DecidableEq

/-- Payment status enum (`models/order.model.js`). -/
inductive PaymentStatus where
  | unpaid
  | paid
  | refunded
deriving Repr, DecidableEq

/-- A snapshot line item of an order (`orderItemSchema`). -/
structure OrderItem where
  product : ℕ
  title : String
  slug : String
  price : ℚ
  qty : ℕ
  lineTotal : ℚ
deriving Repr, DecidableEq

/-- Shipping address subdocument (`orderSchema.shippingAddress`). -/
structure Address where
  fullName : String := ""
  phone : String := ""
  address1 : String := ""
  address2 : Option String := none
  city : String := ""
  state : Option String := none
  postalCode : String := ""
  country : String := ""
deriving Repr, DecidableEq

/-- An order document (`models/order.model.js`). `cancelledAt` stores an
abstract timestamp. -/
structure Order where
  id : ℕ
  user : ℕ
  items : List OrderItem
  subtotal : ℚ
  shippingFee : ℚ
  tax : ℚ
  grandTotal : ℚ
  shippingAddress : Address := {}
  paymentMethod : String := "cod"
  paymentStatus : PaymentStatus := .unpaid
  status : OrderStatus := .pending
  cancelled : Bool := false
  cancelledAt : Option ℕ := none
deriving Repr, DecidableEq

/-- The database state: the three collections the order workflow touches. -/
structure DB where
  products : List Product
  carts : List Cart
  orders : List Order
deriving Repr, DecidableEq

/-- The JSON body of a response, with the fields any handler in the order
workflow may emit. Absent fields are `none`. -/
structure RespBody where
  status : Option ℕ := none
  message : Option String := none
  ok : Option Bool := none
  order : Option Order := none
  item : Option Product := none
deriving Repr, DecidableEq

/-- An HTTP response: status code plus JSON body. -/
structure Resp where
  status : ℕ
  body : RespBody := {}
deriving Repr, DecidableEq

/-- Parsed request body of `POST /api/orders` (`createOrderSchema`). -/
structure CreateOrderBody where
  shippingAddress : Option Address := none
  paymentMethod : Option String := none
deriving Repr, DecidableEq

/-- Parsed request body of `PATCH /api/orders/:id/status`
(`updateStatusSchema`). -/
structure UpdateStatusBody where
  status : Option OrderStatus := none
  paymentStatus : Option PaymentStatus := none
deriving Repr, DecidableEq

/-- `Product.findOne({_id: i})`: first product with the given id. -/
def findProduct : List Product → ℕ → Option Product
  | [], _ => none
  | p :: ps, i => if p.id = i then some p else findProduct ps i

/-- `Cart.findOne({user: u})`: first cart owned by the given user. -/
def findCart : List Cart → ℕ → Option Cart
  | [], _ => none
  | c :: cs, u => if c.user = u then some c else findCart cs u

/-- `Order.findById(i)`: first order with the given id. -/
def findOrder : List Order → ℕ → Option Order
  | [], _ => none
  | o :: os, i => if o.id = i then some o else findOrder os i

/-- Observed stock of a product id, `none` when the product is absent. -/
def stockOf (ps : List Product) (i : ℕ) : Option ℤ :=
  (findProduct ps i).map Product.stock

/-- `Product.updateOne({_id: i, stock: {$gte: q}}, {$inc: {stock: -q}})`:
the conditional decrement.  Returns the updated collection and the
`modifiedCount` (MongoDB reports a modified count only when the matched
document actually changed, so a `$inc` by 0 yields 0). -/
def decOne : List Product → ℕ → ℕ → List Product × ℕ
  | [], _, _ => ([], 0)
  | p :: ps, i, q =>
    if p.id = i then
      if (q : ℤ) ≤ p.stock then
        if q = 0 then (p :: ps, 0)
        else ({ p with stock := p.stock - (q : ℤ) } :: ps, 1)
      else (p :: ps, 0)
    else
      (p :: (decOne ps i q).1, (decOne ps i q).2)

/-- The decrement loop of the checkout transaction: each cart line issues a
conditional decrement; if its `modifiedCount` is not 1 the whole unit fails
with the offending product's slug (stock updates never change slugs, so the
lookup in the current collection agrees with the populated cart). -/
def decAll : List Product → List CartItem → Except String (List Product)
  | ps, [] => .ok ps
  | ps, it :: rest =>
    if (decOne ps it.product it.qty).2 = 1 then decAll (decOne ps it.product it.qty).1 rest
    else .error (((findProduct ps it.product).map Product.slug).getD "")

/-- `Product.updateOne({_id: i}, {$inc: {stock: q}})`: the unconditional
increment used by cancellation (its result is not inspected). -/
def incOne : List Product → ℕ → ℕ → List Product
  | [], _, _ => []
  | p :: ps, i, q =>
    if p.id = i then { p with stock := p.stock + (q : ℤ) } :: ps
    else p :: incOne ps i q

/-- The stock-restoration loop of the cancellation transaction. -/
def incAll : List Product → List OrderItem → List Product
  | ps, [] => ps
  | ps, it :: rest => incAll (incOne ps it.product it.qty) rest

/-- The validation-and-snapshot loop of `createOrder`: resolve each cart
line's populated product, reject missing/inactive products and insufficient
stock, and accumulate the priced snapshot and the (unrounded) subtotal. -/
def buildSnapshot : List Product → List CartItem → Except Resp (List OrderItem × ℚ)
  | _, [] => .ok ([], 0)
  | ps, it :: rest =>
    match findProduct ps it.product with
    | none => .error { status := 400, body := { message := some "Product unavailable in cart" } }
    | some p =>
      if p.isActive = false then
        .error { status := 400, body := { message := some "Product unavailable in cart" } }
      else if p.stock < (it.qty : ℤ) then
        .error { status := 400, body := { message := some ("Insufficient stock for " ++ p.slug) } }
      else
        match buildSnapshot ps rest with
        | .error r => .error r
        | .ok (snap, sub) =>
          .ok ({ product := p.id, title := p.title, slug := p.slug, price := p.price,
                 qty := it.qty, lineTotal := round2 (p.price * (it.qty : ℚ)) } :: snap,
               round2 (p.price * (it.qty : ℚ)) + sub)

/-- `cart.items = []; cart.save()`: empty the found user's cart document. -/
def clearCart : List Cart → ℕ → List Cart
  | [], _ => []
  | c :: cs, u =>
    if c.user = u then { c with items := [] } :: cs
    else c :: clearCart cs u

/-- `order.save()`: persist an order document back by its id. -/
def replaceOrder (os : List Order) (i : ℕ) (o : Order) : List Order :=
  os.map fun x => if x.id = i then o else x

/-- `POST /api/orders` (`createOrder` in `order.controller.js`): load the
cart, validate and snapshot it, then atomically decrement stock, persist
the order and clear the cart; any transaction failure aborts with 500. -/
def createOrder (u : ℕ) (body : CreateOrderBody) (db : DB) : Resp × DB :=
  match findCart db.carts u with
  | none => ({ status := 400, body := { message := some "Cart is empty" } }, db)
  | some cart =>
    if cart.items.length = 0 then
      ({ status := 400, body := { message := some "Cart is empty" } }, db)
    else
      match buildSnapshot db.products cart.items with
      | .error r => (r, db)
      | .ok (snap, rawSub) =>
        let subtotal := round2 rawSub
        let shippingFee := calcShipping subtotal
        let tax := calcTax subtotal
        let grandTotal := round2 (subtotal + shippingFee + tax)
        match decAll db.products cart.items with
        | .error s =>
          ({ status := 500, body := { message := some ("Stock update failed for " ++ s) } }, db)
        | .ok products2 =>
          let order : Order :=
            { id := db.orders.length, user := u, items := snap,
              subtotal := subtotal, shippingFee := shippingFee, tax := tax,
              grandTotal := grandTotal,
              shippingAddress := body.shippingAddress.getD {},
              paymentMethod := body.paymentMethod.getD "cod",
              paymentStatus := .unpaid, status := .pending,
              cancelled := false, cancelledAt := none }
          ({ status := 201, body := { order := some order } },
           { products := products2, carts := clearCart db.carts u,
             orders := db.orders ++ [order] })

/-- `DELETE /api/orders/:id` (`cancelMyOrder`): authorization, eligibility,
then a transaction restoring stock and marking the order cancelled. -/
def cancelMyOrder (requesterId : ℕ) (role : String) (orderId : ℕ) (now : ℕ)
    (db : DB) : Resp × DB :=
  match findOrder db.orders orderId with
  | none => ({ status := 404, body := { message := some "Not found" } }, db)
  | some o =>
    if !(o.user == requesterId) && !(role == "admin") then
      ({ status := 403, body := { message := some "Forbidden" } }, db)
    else if o.cancelled then
      ({ status := 400, body := { message := some "Already cancelled" } }, db)
    else if !(o.paymentStatus == .unpaid) || !(o.status == .pending) then
      ({ status := 400,
         body := { message := some "Cannot cancel after payment or processing" } }, db)
    else
      let products2 := incAll db.products o.items
      let o2 := { o with cancelled := true, cancelledAt := some now }
      ({ status := 200, body := { ok := some true } },
       { db with products := products2, orders := replaceOrder db.orders orderId o2 })

/-- The two conditional field assignments of `updateOrderStatus`. -/
def applyStatusBody (o : Order) (d : UpdateStatusBody) : Order :=
  let o1 := match d.status with
    | some s => { o with status := s }
    | none => o
  match d.paymentStatus with
  | some p => { o1 with paymentStatus := p }
  | none => o1

/-- `PATCH /api/orders/:id/status` (`updateOrderStatus`): set `status`
and/or `paymentStatus` from the validated body and save. -/
def updateOrderStatus (orderId : ℕ) (d : UpdateStatusBody) (db : DB) : Resp × DB :=
  match findOrder db.orders orderId with
  | none => ({ status := 404, body := { message := some "Not found" } }, db)
  | some o =>
    let o2 := applyStatusBody o d
    ({ status := 200, body := { order := some o2 } },
     { db with orders := replaceOrder db.orders orderId o2 })

/-- Parsed request body of `PATCH /api/products/:slug` (`updateSchema` in
`product.controller.js`); zod guarantees present strings are nonempty. -/
structure UpdateProductBody where
  title : Option String := none
  slug : Option String := none
  regenerateSlug : Option Bool := none
  description : Option String := none
  price : Option ℚ := none
  stock : Option ℤ := none
  images : Option (List String) := none
  isActive : Option Bool := none
  categorySlug : Option String := none
  subcategorySlug : Option String := none
deriving Repr, DecidableEq

/-- `Product.findOne({slug})`: first product with the given slug. -/
def findProductBySlug : List Product → String → Option Product
  | [], _ => none
  | p :: ps, s => if p.slug = s then some p else findProductBySlug ps s

/-- `product.save()`: persist a product document back by its id. -/
def replaceProductById (ps : List Product) (i : ℕ) (p : Product) : List Product :=
  ps.map fun x => if x.id = i then p else x

/-- The trailing field assignments of `updateProduct` (description, price,
stock, images, isActive), each applied only when present in the body. -/
def applyOtherFields (c : Product) (d : UpdateProductBody) : Product :=
  let c1 := match d.description with
    | some x => { c with description := x }
    | none => c
  let c2 := match d.price with
    | some x => { c1 with price := x }
    | none => c1
  let c3 := match d.stock with
    | some x => { c2 with stock := x }
    | none => c2
  let c4 := match d.images with
    | some x => { c3 with images := x }
    | none => c3
  match d.isActive with
  | some b => { c4 with isActive := b }
  | none => c4

/-- `PATCH /api/products/:slug` (`updateProduct` in `product.controller.js`).
The two collaborators the spec declares external are taken as parameters:
`uniq` is the `uniqueSlug(base, excludeId)` contract and `resolveRefs` is
`resolveCategoryRefs(categorySlug, subcategorySlug)`, whose thrown errors
become a 400 response that discards every pending field change. -/
def updateProduct (uniq : String → ℕ → String)
    (resolveRefs : Option String → Option String → Except String (Option ℕ × Option ℕ))
    (slug : String) (d : UpdateProductBody) (db : DB) : Resp × DB :=
  match findProductBySlug db.products slug with
  | none => ({ status := 404, body := { message := some "Not found" } }, db)
  | some current =>
    let c1 := match d.title with
      | some t => { current with title := t }
      | none => current
    let c2 := match d.slug with
      | some s => { c1 with slug := uniq s current.id }
      | none =>
        match d.regenerateSlug, d.title with
        | some true, some t => { c1 with slug := uniq t current.id }
        | _, _ => c1
    if d.categorySlug ≠ none ∨ d.subcategorySlug ≠ none then
      match resolveRefs d.categorySlug d.subcategorySlug with
      | .error msg => ({ status := 400, body := { message := some msg } }, db)
      | .ok (ci, si) =>
        let c3 := { c2 with category := ci, subcategory := si }
        let c4 := applyOtherFields c3 d
        ({ status := 200, body := { item := some c4 } },
         { db with products := replaceProductById db.products current.id c4 })
    else
      let c4 := applyOtherFields c2 d
      ({ status := 200, body := { item := some c4 } },
       { db with products := replaceProductById db.products current.id c4 })

/-- An error object as the express error middleware sees it: an optional
`status` field and a `message` (the empty string models a falsy message). -/
structure ErrObj where
  status : Option ℕ := none
  message : String := ""
deriving Repr, DecidableEq

/-- `errorHandler` from the middleware: respond with `err.status || 500`
and a JSON body `{status, message: err.message || 'Internal Server Error'}`
(the development-only `stack` field is omitted from the model). -/
def errorHandler (e : ErrObj) : Resp :=
  let s := e.status.getD 500
  { status := s,
    body := { status := some s,
              message := some (if e.message = "" then "Internal Server Error" else e.message) } }

/-- A `ZodError` thrown by `schema.parse` on a malformed body: it carries
the field-issue detail in its message and has no `status` property. -/
def zodError (detail : String) : ErrObj := { status := none, message := detail }

/-- Total ordered quantity of one product across the cart lines. -/
def qtySum (items : List CartItem) (i : ℕ) : ℕ :=
  (items.map fun it => if it.product = i then it.qty else 0).sum

/-- Total snapshot quantity of one product across an order's line items. -/
def orderQtySum (items : List OrderItem) (i : ℕ) : ℕ :=
  (items.map fun it => if it.product = i then it.qty else 0).sum

/-- Every product in the database has non-negative stock. -/
def stocksNonneg (db : DB) : Prop := ∀ p ∈ db.products, 0 ≤ p.stock

/-- Run a sequence of checkout attempts, threading the database state. -/
def runCheckouts : List (ℕ × CreateOrderBody) → DB → DB
  | [], db => db
  | (u, b) :: rest, db => runCheckouts rest (createOrder u b db).2

/-- A rational is a whole number of cents. -/
def IsCents (x : ℚ) : Prop := ∃ k : ℤ, x = (k : ℚ) / 100

/-- Product A of the spec scenario: price 10.00, stock 5. -/
def productA : Product := { id := 1, title := "A", slug := "a", price := 10, stock := 5 }

/-- Database for the success scenario: user 7 has a cart with 2 units of
product A. -/
def dbA : DB :=
  { products := [productA],
    carts := [{ user := 7, items := [{ product := 1, qty := 2 }] }],
    orders := [] }

/-- Product B of the spec scenario: stock 1. -/
def productB : Product := { id := 2, title := "B", slug := "b", price := 5, stock := 1 }

/-- Database for the insufficient-stock scenario: user 8 asks for 2 units
of product B, which has stock 1. -/
def dbB : DB :=
  { products := [productB],
    carts := [{ user := 8, items := [{ product := 2, qty := 2 }] }],
    orders := [] }

/-- A pending, unpaid, uncancelled order of user 7 over 2 units of
product A, used by the cancellation witnesses. -/
def orderA : Order :=
  { id := 0, user := 7,
    items := [{ product := 1, title := "A", slug := "a", price := 10, qty := 2, lineTotal := 20 }],
    subtotal := 20, shippingFee := 0, tax := 0, grandTotal := 20 }

/-- Database holding `orderA` next to product A (stock 5). -/
def dbC : DB := { products := [productA], carts := [], orders := [orderA] }

/-- A delivered, paid, already-cancelled order of user 7, used by the
status-update and eligibility witnesses. -/
def orderD : Order :=
  { id := 3, user := 7,
    items := [{ product := 1, title := "A", slug := "a", price := 10, qty := 2, lineTotal := 20 }],
    subtotal := 20, shippingFee := 0, tax := 0, grandTotal := 20,
    paymentStatus := .paid, status := .delivered, cancelled := true, cancelledAt := some 11 }

/-- Database holding `orderD` next to product A. -/
def dbD : DB := { products := [productA], carts := [], orders := [orderD] }

/-! ### Arithmetic lemmas about `round2` -/

theorem round2_isCents (x : ℚ) : IsCents (round2 x) :=
  ⟨⌊x * 100 + 1 / 2⌋, rfl⟩

theorem round2_cents (k : ℤ) : round2 ((k : ℚ) / 100) = (k : ℚ) / 100 := by
  have h1 : ((k : ℚ) / 100) * 100 = (k : ℚ) := by
    field_simp
  have h2 : ⌊(k : ℚ) + 1 / 2⌋ = k := by
    rw [Int.floor_int_add]
    have : ⌊(1 / 2 : ℚ)⌋ = 0 := by
      rw [Int.floor_eq_zero_iff]
      constructor <;> norm_num
    omega
  rw [round2, h1, h2]

theorem round2_eq_self {x : ℚ} (h : IsCents x) : round2 x = x := by
  obtain ⟨k, rfl⟩ := h
  exact round2_cents k

theorem IsCents.add {x y : ℚ} (hx : IsCents x) (hy : IsCents y) : IsCents (x + y) := by
  obtain ⟨k, rfl⟩ := hx
  obtain ⟨l, rfl⟩ := hy
  exact ⟨k + l, by push_cast; ring⟩

theorem IsCents.zero : IsCents (0 : ℚ) := ⟨0, by norm_num⟩

theorem isCents_sum {l : List ℚ} (h : ∀ x ∈ l, IsCents x) : IsCents l.sum := by
  induction l with
  | nil => simpa using IsCents.zero
  | cons x xs ih =>
    rw [List.sum_cons]
    exact (h x (by simp)).add (ih fun y hy => h y (List.mem_cons_of_mem _ hy))

/-- Accumulating with rounding after every addition agrees with rounding the
plain sum, as long as every summand is a whole number of cents. -/
theorem foldl_round2_eq_sum {l : List ℚ} (h : ∀ x ∈ l, IsCents x)
    {a : ℚ} (ha : IsCents a) :
    l.foldl (fun acc t => round2 (acc + t)) a = a + l.sum := by
  induction l generalizing a with
  | nil => simp
  | cons x xs ih =>
    have hx : IsCents x := h x (by simp)
    rw [List.foldl_cons, round2_eq_self (ha.add hx),
      ih (fun y hy => h y (List.mem_cons_of_mem _ hy)) (ha.add hx),
      List.sum_cons]
    ring

/-! ### Lemmas about the inventory primitives -/

theorem findProduct_cons_hit {p : Product} {ps : List Product} {j : ℕ}
    (h : p.id = j) : findProduct (p :: ps) j = some p := by
  simp [findProduct, h]

theorem findProduct_cons_skip {p : Product} {ps : List Product} {j : ℕ}
    (h : ¬ p.id = j) : findProduct (p :: ps) j = findProduct ps j := by
  simp [findProduct, h]

theorem stockOf_cons_hit {p : Product} {ps : List Product} {j : ℕ}
    (h : p.id = j) : stockOf (p :: ps) j = some p.stock := by
  rw [stockOf, findProduct_cons_hit h]
  rfl

theorem stockOf_cons_skip {p : Product} {ps : List Product} {j : ℕ}
    (h : ¬ p.id = j) : stockOf (p :: ps) j = stockOf ps j := by
  rw [stockOf, findProduct_cons_skip h, stockOf]

theorem findProduct_id {ps : List Product} {i : ℕ} {p : Product}
    (h : findProduct ps i = some p) : p.id = i := by
  induction ps with
  | nil => simp [findProduct] at h
  | cons q qs ih =>
    by_cases hq : q.id = i
    · rw [findProduct_cons_hit hq] at h
      cases h
      exact hq
    · rw [findProduct_cons_skip hq] at h
      exact ih h

theorem decOne_cons_hit {p : Product} {ps : List Product} {i q : ℕ}
    (hid : p.id = i) (hle : (q : ℤ) ≤ p.stock) (hq : ¬ q = 0) :
    decOne (p :: ps) i q = ({ p with stock := p.stock - (q : ℤ) } :: ps, 1) := by
  simp [decOne, hid, hle, hq]

theorem decOne_cons_low {p : Product} {ps : List Product} {i q : ℕ}
    (hid : p.id = i) (hle : ¬ (q : ℤ) ≤ p.stock) :
    decOne (p :: ps) i q = (p :: ps, 0) := by
  simp [decOne, hid, hle]

theorem decOne_cons_zero {p : Product} {ps : List Product} {i q : ℕ}
    (hid : p.id = i) (_hle : (q : ℤ) ≤ p.stock) (hq : q = 0) :
    decOne (p :: ps) i q = (p :: ps, 0) := by
  simp [decOne, hid, hq]

theorem decOne_cons_skip {p : Product} {ps : List Product} {i q : ℕ}
    (hid : ¬ p.id = i) :
    decOne (p :: ps) i q = (p :: (decOne ps i q).1, (decOne ps i q).2) := by
  simp [decOne, hid]

theorem decOne_modified {ps : List Product} {i q : ℕ}
    (h : (decOne ps i q).2 = 1) :
    ∃ p, findProduct ps i = some p ∧ (q : ℤ) ≤ p.stock ∧ q ≠ 0 := by
  induction ps with
  | nil => simp [decOne] at h
  | cons p ps ih =>
    by_cases hid : p.id = i
    · by_cases hle : (q : ℤ) ≤ p.stock
      · by_cases hq : q = 0
        · rw [decOne_cons_zero hid hle hq] at h
          simp at h
        · exact ⟨p, findProduct_cons_hit hid, hle, hq⟩
      · rw [decOne_cons_low hid hle] at h
        simp at h
    · rw [decOne_cons_skip hid] at h
      obtain ⟨p', hp', hle, hq⟩ := ih h
      exact ⟨p', by rw [findProduct_cons_skip hid]; exact hp', hle, hq⟩

theorem stockOf_decOne {ps : List Product} {i q : ℕ}
    (h : (decOne ps i q).2 = 1) (j : ℕ) :
    stockOf (decOne ps i q).1 j =
      if j = i then (stockOf ps i).map (fun s => s - (q : ℤ)) else stockOf ps j := by
  induction ps with
  | nil => simp [decOne] at h
  | cons p ps ih =>
    by_cases hid : p.id = i
    · by_cases hle : (q : ℤ) ≤ p.stock
      · by_cases hq : q = 0
        · rw [decOne_cons_zero hid hle hq] at h; simp at h
        · rw [decOne_cons_hit hid hle hq]
          by_cases hj : j = i
          · subst hj
            simp [stockOf, findProduct_cons_hit hid, findProduct_cons_hit (show Product.id { p with stock := p.stock - (q : ℤ) } = j from hid)]
          · have hpj : ¬ p.id = j := fun e => hj (by rw [← e, hid])
            simp only [if_neg hj, stockOf]
            rw [findProduct_cons_skip (show ¬ Product.id { p with stock := p.stock - (q : ℤ) } = j from hpj),
              findProduct_cons_skip hpj]
      · rw [decOne_cons_low hid hle] at h; simp at h
    · rw [decOne_cons_skip hid] at h
      rw [decOne_cons_skip hid]
      by_cases hj : p.id = j
      · have hji : ¬ j = i := fun e => hid (by rw [hj, e])
        simp [stockOf, if_neg hji, findProduct_cons_hit hj]
      · have hIH := ih h
        rw [stockOf_cons_skip hj, stockOf_cons_skip hid, hIH, stockOf_cons_skip hj]

theorem findProduct_slug_decOne (ps : List Product) (i q j : ℕ) :
    (findProduct (decOne ps i q).1 j).map Product.slug
      = (findProduct ps j).map Product.slug := by
  induction ps with
  | nil => simp [decOne]
  | cons p ps ih =>
    by_cases hid : p.id = i
    · by_cases hle : (q : ℤ) ≤ p.stock
      · by_cases hq : q = 0
        · rw [decOne_cons_zero hid hle hq]
        · rw [decOne_cons_hit hid hle hq]
          by_cases hj : p.id = j
          · rw [findProduct_cons_hit (show Product.id { p with stock := p.stock - (q : ℤ) } = j from hj),
              findProduct_cons_hit hj]
            simp
          · rw [findProduct_cons_skip (show ¬ Product.id { p with stock := p.stock - (q : ℤ) } = j from hj),
              findProduct_cons_skip hj]
      · rw [decOne_cons_low hid hle]
    · rw [decOne_cons_skip hid]
      by_cases hj : p.id = j
      · rw [findProduct_cons_hit hj, findProduct_cons_hit hj]
      · rw [findProduct_cons_skip hj, findProduct_cons_skip hj]
        exact ih

theorem decOne_nonneg {ps : List Product} {i q : ℕ}
    (h : ∀ p ∈ ps, 0 ≤ p.stock) :
    ∀ p ∈ (decOne ps i q).1, 0 ≤ p.stock := by
  induction ps with
  | nil => simp [decOne]
  | cons p ps ih =>
    have hp := h p (by simp)
    have hps : ∀ x ∈ ps, 0 ≤ x.stock := fun x hx => h x (List.mem_cons_of_mem _ hx)
    by_cases hid : p.id = i
    · by_cases hle : (q : ℤ) ≤ p.stock
      · by_cases hq : q = 0
        · rw [decOne_cons_zero hid hle hq]
          exact h
        · rw [decOne_cons_hit hid hle hq]
          intro x hx
          rcases List.mem_cons.mp hx with hx1 | hx2
          · subst hx1; simp; omega
          · exact hps x hx2
      · rw [decOne_cons_low hid hle]
        exact h
    · rw [decOne_cons_skip hid]
      intro x hx
      rcases List.mem_cons.mp hx with hx1 | hx2
      · subst hx1; exact hp
      · exact ih hps x hx2

theorem qtySum_cons (it : CartItem) (rest : List CartItem) (j : ℕ) :
    qtySum (it :: rest) j = (if it.product = j then it.qty else 0) + qtySum rest j := by
  simp [qtySum]

theorem decAll_ok_stockOf {items : List CartItem} :
    ∀ {ps ps2 : List Product}, decAll ps items = .ok ps2 → ∀ j,
      stockOf ps2 j = (stockOf ps j).map (fun s => s - (qtySum items j : ℤ)) := by
  induction items with
  | nil =>
    intro ps ps2 h j
    simp only [decAll, Except.ok.injEq] at h
    rw [← h]
    cases ho : stockOf ps j <;> simp [qtySum, ho]
  | cons it rest ih =>
    intro ps ps2 h j
    rw [decAll] at h
    by_cases hcnt : (decOne ps it.product it.qty).2 = 1
    · rw [if_pos hcnt] at h
      have hIH := ih h j
      rw [hIH, stockOf_decOne hcnt j, qtySum_cons]
      by_cases hj : j = it.product
      · subst hj
        rw [if_pos rfl, if_pos rfl]
        cases ho : stockOf ps it.product <;> simp [ho, sub_sub, Nat.cast_add]
      · rw [if_neg hj, if_neg (fun e => hj e.symm)]
        simp
    · rw [if_neg hcnt] at h
      exact absurd h (by simp)

theorem decAll_ok_nonneg {items : List CartItem} :
    ∀ {ps ps2 : List Product}, decAll ps items = .ok ps2 →
      (∀ p ∈ ps, 0 ≤ p.stock) → ∀ p ∈ ps2, 0 ≤ p.stock := by
  induction items with
  | nil =>
    intro ps ps2 h hpos
    simp only [decAll] at h
    cases h
    exact hpos
  | cons it rest ih =>
    intro ps ps2 h hpos
    rw [decAll] at h
    by_cases hcnt : (decOne ps it.product it.qty).2 = 1
    · rw [if_pos hcnt] at h
      exact ih h (decOne_nonneg hpos)
    · rw [if_neg hcnt] at h
      exact absurd h (by simp)

theorem decAll_error_mem {items : List CartItem} :
    ∀ {ps : List Product} {s : String}, decAll ps items = .error s →
      ∃ it ∈ items, s = ((findProduct ps it.product).map Product.slug).getD "" := by
  induction items with
  | nil => intro ps s h; simp [decAll] at h
  | cons it rest ih =>
    intro ps s h
    rw [decAll] at h
    by_cases hcnt : (decOne ps it.product it.qty).2 = 1
    · rw [if_pos hcnt] at h
      obtain ⟨it2, hmem, hs⟩ := ih h
      refine ⟨it2, List.mem_cons_of_mem _ hmem, ?_⟩
      rw [hs, findProduct_slug_decOne]
    · rw [if_neg hcnt] at h
      simp only [Except.error.injEq] at h
      exact ⟨it, by simp, h.symm⟩

theorem incOne_cons_hit {p : Product} {ps : List Product} {i q : ℕ}
    (hid : p.id = i) :
    incOne (p :: ps) i q = { p with stock := p.stock + (q : ℤ) } :: ps := by
  simp [incOne, hid]

theorem incOne_cons_skip {p : Product} {ps : List Product} {i q : ℕ}
    (hid : ¬ p.id = i) :
    incOne (p :: ps) i q = p :: incOne ps i q := by
  simp [incOne, hid]

theorem stockOf_incOne (ps : List Product) (i q j : ℕ) :
    stockOf (incOne ps i q) j =
      if j = i then (stockOf ps i).map (fun s => s + (q : ℤ)) else stockOf ps j := by
  induction ps with
  | nil => by_cases hj : j = i <;> simp [incOne, stockOf, findProduct, hj]
  | cons p ps ih =>
    by_cases hid : p.id = i
    · rw [incOne_cons_hit hid]
      by_cases hj : j = i
      · subst hj
        rw [if_pos rfl,
          stockOf_cons_hit (show Product.id { p with stock := p.stock + (q : ℤ) } = j from hid),
          stockOf_cons_hit hid]
        simp
      · have hpj : ¬ p.id = j := fun e => hj (by rw [← e, hid])
        rw [if_neg hj,
          stockOf_cons_skip (show ¬ Product.id { p with stock := p.stock + (q : ℤ) } = j from hpj),
          stockOf_cons_skip hpj]
    · rw [incOne_cons_skip hid]
      by_cases hj : p.id = j
      · have hji : ¬ j = i := fun e => hid (by rw [hj, e])
        rw [if_neg hji, stockOf_cons_hit hj, stockOf_cons_hit hj]
      · rw [stockOf_cons_skip hj, stockOf_cons_skip hid, ih, stockOf_cons_skip hj]

theorem orderQtySum_cons (it : OrderItem) (rest : List OrderItem) (j : ℕ) :
    orderQtySum (it :: rest) j
      = (if it.product = j then it.qty else 0) + orderQtySum rest j := by
  simp [orderQtySum]

theorem stockOf_incAll {items : List OrderItem} :
    ∀ (ps : List Product) (j : ℕ),
      stockOf (incAll ps items) j
        = (stockOf ps j).map (fun s => s + (orderQtySum items j : ℤ)) := by
  induction items with
  | nil =>
    intro ps j
    cases ho : stockOf ps j <;> simp [incAll, orderQtySum, ho]
  | cons it rest ih =>
    intro ps j
    rw [incAll, ih, stockOf_incOne, orderQtySum_cons]
    by_cases hj : j = it.product
    · subst hj
      rw [if_pos rfl, if_pos rfl]
      cases ho : stockOf ps it.product <;> simp [ho, add_assoc, Nat.cast_add]
    · rw [if_neg hj, if_neg (fun e => hj e.symm)]
      simp

/-! ### Lemmas about snapshot building, cart clearing and order saving -/

theorem buildSnapshot_ok {items : List CartItem} :
    ∀ {ps : List Product} {snap : List OrderItem} {sub : ℚ},
      buildSnapshot ps items = .ok (snap, sub) →
      (∀ s ∈ snap, s.lineTotal = round2 (s.price * (s.qty : ℚ))
          ∧ (findProduct ps s.product).map Product.price = some s.price
          ∧ IsCents s.lineTotal)
        ∧ sub = (snap.map OrderItem.lineTotal).sum := by
  induction items with
  | nil =>
    intro ps snap sub h
    simp only [buildSnapshot, Except.ok.injEq, Prod.mk.injEq] at h
    obtain ⟨h1, h2⟩ := h
    subst h1
    subst h2
    simp
  | cons it rest ih =>
    intro ps snap sub h
    cases hfp : findProduct ps it.product with
    | none => simp [buildSnapshot, hfp] at h
    | some p =>
      simp only [buildSnapshot, hfp] at h
      by_cases hact : p.isActive = false
      · rw [if_pos hact] at h; simp at h
      · rw [if_neg hact] at h
        by_cases hstk : p.stock < (it.qty : ℤ)
        · rw [if_pos hstk] at h; simp at h
        · rw [if_neg hstk] at h
          cases hrest : buildSnapshot ps rest with
          | error r => rw [hrest] at h; simp at h
          | ok pr =>
            obtain ⟨snap0, sub0⟩ := pr
            rw [hrest] at h
            simp only [Except.ok.injEq, Prod.mk.injEq] at h
            obtain ⟨h1, h2⟩ := h
            obtain ⟨hmem, hsum⟩ := ih hrest
            subst h1
            subst h2
            constructor
            · intro s hs
              rcases List.mem_cons.mp hs with hs1 | hs2
              · subst hs1
                refine ⟨rfl, ?_, round2_isCents _⟩
                have : p.id = it.product := findProduct_id hfp
                simp only [this, hfp, Option.map_some']
              · exact hmem s hs2
            · simp [hsum]

theorem buildSnapshot_error {items : List CartItem} :
    ∀ {ps : List Product} {r : Resp}, buildSnapshot ps items = .error r →
      r.status = 400
      ∧ (r.body.message = some "Product unavailable in cart"
          ∨ ∃ sl, r.body.message = some ("Insufficient stock for " ++ sl))
      ∧ r.body.order = none
      ∧ r.body.status = none := by
  induction items with
  | nil => intro ps r h; simp [buildSnapshot] at h
  | cons it rest ih =>
    intro ps r h
    cases hfp : findProduct ps it.product with
    | none =>
      simp only [buildSnapshot, hfp, Except.error.injEq] at h
      subst h
      exact ⟨rfl, Or.inl rfl, rfl, rfl⟩
    | some p =>
      simp only [buildSnapshot, hfp] at h
      by_cases hact : p.isActive = false
      · rw [if_pos hact] at h
        simp only [Except.error.injEq] at h
        subst h
        exact ⟨rfl, Or.inl rfl, rfl, rfl⟩
      · rw [if_neg hact] at h
        by_cases hstk : p.stock < (it.qty : ℤ)
        · rw [if_pos hstk] at h
          simp only [Except.error.injEq] at h
          subst h
          exact ⟨rfl, Or.inr ⟨p.slug, rfl⟩, rfl, rfl⟩
        · rw [if_neg hstk] at h
          cases hrest : buildSnapshot ps rest with
          | error r2 =>
            rw [hrest] at h
            simp only [Except.error.injEq] at h
            subst h
            exact ih hrest
          | ok pr =>
            obtain ⟨snap0, sub0⟩ := pr
            rw [hrest] at h
            simp at h

theorem buildSnapshot_error_of_bad {items : List CartItem} :
    ∀ {ps : List Product},
      (∃ it ∈ items, findProduct ps it.product = none
        ∨ ∃ p, findProduct ps it.product = some p
            ∧ (p.isActive = false ∨ p.stock < (it.qty : ℤ))) →
      ∃ r, buildSnapshot ps items = .error r := by
  induction items with
  | nil => intro ps h; simp at h
  | cons it rest ih =>
    intro ps h
    cases hfp : findProduct ps it.product with
    | none => exact ⟨_, by simp only [buildSnapshot, hfp]; rfl⟩
    | some p =>
      by_cases hact : p.isActive = false
      · exact ⟨_, by simp only [buildSnapshot, hfp, if_pos hact]; rfl⟩
      · by_cases hstk : p.stock < (it.qty : ℤ)
        · exact ⟨_, by simp only [buildSnapshot, hfp, if_neg hact, if_pos hstk]; rfl⟩
        · have hrest : ∃ it2 ∈ rest, findProduct ps it2.product = none
              ∨ ∃ p2, findProduct ps it2.product = some p2
                  ∧ (p2.isActive = false ∨ p2.stock < (it2.qty : ℤ)) := by
            obtain ⟨it2, hmem, hbad⟩ := h
            rcases List.mem_cons.mp hmem with h1 | h2
            · subst h1
              rcases hbad with hb1 | ⟨p2, hp2, hb2⟩
              · rw [hfp] at hb1; cases hb1
              · rw [hfp] at hp2
                cases hp2
                rcases hb2 with hb3 | hb4
                · exact absurd hb3 hact
                · exact absurd hb4 hstk
            · exact ⟨it2, h2, hbad⟩
          obtain ⟨r, hr⟩ := ih hrest
          exact ⟨r, by simp only [buildSnapshot, hfp, if_neg hact, if_neg hstk, hr]⟩

theorem findCart_clearCart (cs : List Cart) (u : ℕ) :
    findCart (clearCart cs u) u = (findCart cs u).map (fun c => { c with items := [] }) := by
  induction cs with
  | nil => simp [clearCart, findCart]
  | cons c cs ih =>
    by_cases hc : c.user = u
    · simp [clearCart, findCart, hc]
    · simp [clearCart, findCart, hc, ih]

theorem findOrder_id {os : List Order} {i : ℕ} {o : Order}
    (h : findOrder os i = some o) : o.id = i := by
  induction os with
  | nil => simp [findOrder] at h
  | cons x xs ih =>
    by_cases hx : x.id = i
    · rw [findOrder, if_pos hx] at h
      cases h
      exact hx
    · rw [findOrder, if_neg hx] at h
      exact ih h

theorem findOrder_replaceOrder {os : List Order} {i : ℕ} {o0 : Order}
    (h : findOrder os i = some o0) (o : Order) (hid : o.id = i) :
    findOrder (replaceOrder os i o) i = some o := by
  induction os with
  | nil => simp [findOrder] at h
  | cons x xs ih =>
    by_cases hx : x.id = i
    · simp [replaceOrder, findOrder, hx, hid]
    · rw [findOrder, if_neg hx] at h
      simpa [replaceOrder, findOrder, hx] using ih h

/-! ### Case characterizations of `createOrder` -/

theorem createOrder_noCart_eq {u : ℕ} {b : CreateOrderBody} {db : DB}
    (hc : findCart db.carts u = none) :
    createOrder u b db
      = ({ status := 400, body := { message := some "Cart is empty" } }, db) := by
  simp only [createOrder, hc]

theorem createOrder_emptyCart_eq {u : ℕ} {b : CreateOrderBody} {db : DB} {cart : Cart}
    (hc : findCart db.carts u = some cart) (he : cart.items.length = 0) :
    createOrder u b db
      = ({ status := 400, body := { message := some "Cart is empty" } }, db) := by
  simp only [createOrder, hc, he, if_pos]

theorem createOrder_badSnapshot_eq {u : ℕ} {b : CreateOrderBody} {db : DB} {cart : Cart}
    {r : Resp}
    (hc : findCart db.carts u = some cart) (he : ¬ cart.items.length = 0)
    (hbs : buildSnapshot db.products cart.items = .error r) :
    createOrder u b db = (r, db) := by
  simp only [createOrder, hc, if_neg he, hbs]

theorem createOrder_conflict_eq {u : ℕ} {b : CreateOrderBody} {db : DB} {cart : Cart}
    {snap : List OrderItem} {rawSub : ℚ} {s : String}
    (hc : findCart db.carts u = some cart) (he : ¬ cart.items.length = 0)
    (hbs : buildSnapshot db.products cart.items = .ok (snap, rawSub))
    (hdec : decAll db.products cart.items = .error s) :
    createOrder u b db
      = ({ status := 500,
           body := { message := some ("Stock update failed for " ++ s) } }, db) := by
  simp only [createOrder, hc, if_neg he, hbs, hdec]

theorem createOrder_success_eq {u : ℕ} {b : CreateOrderBody} {db : DB} {cart : Cart}
    {snap : List OrderItem} {rawSub : ℚ} {ps2 : List Product}
    (hc : findCart db.carts u = some cart) (he : ¬ cart.items.length = 0)
    (hbs : buildSnapshot db.products cart.items = .ok (snap, rawSub))
    (hdec : decAll db.products cart.items = .ok ps2) :
    createOrder u b db
      = ({ status := 201,
           body := { order := some ({
              id := db.orders.length, user := u, items := snap,
              subtotal := round2 rawSub,
              shippingFee := calcShipping (round2 rawSub),
              tax := calcTax (round2 rawSub),
              grandTotal := round2 (round2 rawSub + calcShipping (round2 rawSub)
                + calcTax (round2 rawSub)),
              shippingAddress := b.shippingAddress.getD ({}),
              paymentMethod := b.paymentMethod.getD "cod",
              paymentStatus := .unpaid, status := .pending,
              cancelled := false, cancelledAt := none } : Order) } },
         { products := ps2, carts := clearCart db.carts u,
           orders := db.orders ++
            [{ id := db.orders.length, user := u, items := snap,
               subtotal := round2 rawSub,
               shippingFee := calcShipping (round2 rawSub),
               tax := calcTax (round2 rawSub),
               grandTotal := round2 (round2 rawSub + calcShipping (round2 rawSub)
                 + calcTax (round2 rawSub)),
               shippingAddress := b.shippingAddress.getD ({}),
               paymentMethod := b.paymentMethod.getD "cod",
               paymentStatus := .unpaid, status := .pending,
               cancelled := false, cancelledAt := none }] }) := by
  simp only [createOrder, hc, if_neg he, hbs, hdec]

/-- C1.  Checkout is all-or-nothing: every checkout attempt either succeeds
with status 201 and all three effects (stock decremented for every line of
the cart, order appended, cart emptied), or leaves the database exactly as
it was while reporting 400, or 500 carrying the original cause of the
transaction failure. -/
theorem checkout_atomicity (u : ℕ) (b : CreateOrderBody) (db : DB) :
    ((createOrder u b db).1.status = 201
      ∧ ∃ cart, findCart db.carts u = some cart
        ∧ (∀ j, stockOf (createOrder u b db).2.products j
              = (stockOf db.products j).map (fun s => s - (qtySum cart.items j : ℤ)))
        ∧ (∃ o, (createOrder u b db).1.body.order = some o
            ∧ (createOrder u b db).2.orders = db.orders ++ [o])
        ∧ (findCart (createOrder u b db).2.carts u).map Cart.items = some [])
  ∨ ((createOrder u b db).2 = db
      ∧ ((createOrder u b db).1.status = 400
        ∨ ((createOrder u b db).1.status = 500
            ∧ ∃ s, (createOrder u b db).1.body.message
                = some ("Stock update failed for " ++ s)))) := by
  cases hc : findCart db.carts u with
  | none =>
    right
    rw [createOrder_noCart_eq hc]
    simp
  | some cart =>
    by_cases he : cart.items.length = 0
    · right
      rw [createOrder_emptyCart_eq hc he]
      simp
    · cases hbs : buildSnapshot db.products cart.items with
      | error r =>
        right
        rw [createOrder_badSnapshot_eq hc he hbs]
        exact ⟨rfl, Or.inl (buildSnapshot_error hbs).1⟩
      | ok pr =>
        obtain ⟨snap, rawSub⟩ := pr
        cases hdec : decAll db.products cart.items with
        | error s =>
          right
          rw [createOrder_conflict_eq hc he hbs hdec]
          exact ⟨rfl, Or.inr ⟨rfl, s, rfl⟩⟩
        | ok ps2 =>
          left
          rw [createOrder_success_eq hc he hbs hdec]
          refine ⟨rfl, cart, rfl, ?_, ?_, ?_⟩
          · intro j
            exact decAll_ok_stockOf hdec j
          · exact ⟨_, rfl, by rfl⟩
          · rw [findCart_clearCart, hc]
            rfl

theorem cart20 : (10 : ℚ) * ((2 : ℕ) : ℚ) = 20 := by push_cast; norm_num

theorem round2_twenty : round2 20 = 20 := round2_eq_self ⟨2000, by norm_num⟩

theorem createOrder_order_some {u : ℕ} {b : CreateOrderBody} {db : DB} {o : Order}
    (h : (createOrder u b db).1.body.order = some o) :
    (createOrder u b db).1.status = 201
    ∧ o.status = .pending ∧ o.paymentStatus = .unpaid ∧ o.cancelled = false
    ∧ o.user = u
    ∧ (∃ cart, findCart db.carts u = some cart
        ∧ ∃ rawSub, buildSnapshot db.products cart.items = .ok (o.items, rawSub)
          ∧ o.subtotal = round2 rawSub
          ∧ o.shippingFee = calcShipping o.subtotal
          ∧ o.tax = calcTax o.subtotal
          ∧ o.grandTotal = round2 (o.subtotal + o.shippingFee + o.tax)
          ∧ ∀ j, stockOf (createOrder u b db).2.products j
              = (stockOf db.products j).map (fun s => s - (qtySum cart.items j : ℤ)))
    ∧ (createOrder u b db).2.orders = db.orders ++ [o]
    ∧ (findCart (createOrder u b db).2.carts u).map Cart.items = some [] := by
  cases hc : findCart db.carts u with
  | none => rw [createOrder_noCart_eq hc] at h; simp at h
  | some cart =>
    by_cases he : cart.items.length = 0
    · rw [createOrder_emptyCart_eq hc he] at h; simp at h
    · cases hbs : buildSnapshot db.products cart.items with
      | error r =>
        rw [createOrder_badSnapshot_eq hc he hbs] at h
        have hnone : r.body.order = none := (buildSnapshot_error hbs).2.2.1
        simp [hnone] at h
      | ok pr =>
        obtain ⟨snap, rawSub⟩ := pr
        cases hdec : decAll db.products cart.items with
        | error s =>
          rw [createOrder_conflict_eq hc he hbs hdec] at h
          simp at h
        | ok ps2 =>
          rw [createOrder_success_eq hc he hbs hdec] at h ⊢
          simp only [Option.some.injEq] at h
          subst h
          refine ⟨rfl, rfl, rfl, rfl, rfl, ⟨cart, rfl, rawSub, hbs, rfl, rfl, rfl, rfl, ?_⟩, rfl, ?_⟩
          · intro j
            exact decAll_ok_stockOf hdec j
          · rw [findCart_clearCart, hc]
            rfl

/-- C3.  On successful checkout the persisted order has status `pending`
and paymentStatus `unpaid`, every product's stock is reduced by exactly the
ordered quantity, and the user's cart is empty; in the spec scenario
(price 10.00, stock 5, qty 2) the order has subtotal 20, grandTotal 20, the
product's stock becomes 3 and the cart becomes empty. -/
theorem checkout_success_postconditions :
    (∀ (u : ℕ) (b : CreateOrderBody) (db : DB) (o : Order),
        (createOrder u b db).1.body.order = some o →
          (createOrder u b db).1.status = 201
          ∧ o.status = .pending ∧ o.paymentStatus = .unpaid
          ∧ (∃ cart, findCart db.carts u = some cart
              ∧ ∀ j, stockOf (createOrder u b db).2.products j
                  = (stockOf db.products j).map (fun s => s - (qtySum cart.items j : ℤ)))
          ∧ (createOrder u b db).2.orders = db.orders ++ [o]
          ∧ (findCart (createOrder u b db).2.carts u).map Cart.items = some [])
  ∧ ((createOrder 7 {} dbA).1.status = 201
      ∧ ((createOrder 7 {} dbA).1.body.order).map Order.subtotal = some 20
      ∧ ((createOrder 7 {} dbA).1.body.order).map Order.grandTotal = some 20
      ∧ stockOf (createOrder 7 {} dbA).2.products 1 = some 3
      ∧ (findCart (createOrder 7 {} dbA).2.carts 7).map Cart.items = some []) := by
  constructor
  · intro u b db o h
    obtain ⟨h201, hst, hpay, _hcan, _huser, ⟨cart, hc, _rawSub, _hbs, _hsub, _hfee,
      _htax, _hgd, hstock⟩, happ, hcart⟩ := createOrder_order_some h
    exact ⟨h201, hst, hpay, ⟨cart, hc, hstock⟩, happ, hcart⟩
  · have hc : findCart dbA.carts 7 = some ⟨7, [⟨1, 2⟩]⟩ := rfl
    have he : ¬ (Cart.items ⟨7, [⟨1, 2⟩]⟩).length = 0 := by decide
    have hbs : buildSnapshot dbA.products (Cart.items ⟨7, [⟨1, 2⟩]⟩)
        = .ok ([⟨1, "A", "a", 10, 2, round2 ((10 : ℚ) * ((2 : ℕ) : ℚ))⟩],
               round2 ((10 : ℚ) * ((2 : ℕ) : ℚ)) + 0) := rfl
    have hdec : decAll dbA.products (Cart.items ⟨7, [⟨1, 2⟩]⟩)
        = .ok [{ productA with stock := 3 }] := rfl
    rw [createOrder_success_eq hc he hbs hdec]
    refine ⟨rfl, ?_, ?_, rfl, rfl⟩
    · norm_num [cart20, round2_twenty]
    · norm_num [cart20, round2_twenty, calcShipping, calcTax]

/-- Witness for C3 at the concrete scenario database. -/
theorem checkout_success_postconditions_witness :
    (createOrder 7 {} dbA).1.status = 201
    ∧ (createOrder 7 {} dbA).2.orders.length = 1
    ∧ (findCart (createOrder 7 {} dbA).2.carts 7).map Cart.items = some [] := by
  have h := checkout_success_postconditions.1 7 {} dbA _ rfl
  refine ⟨h.1, ?_, h.2.2.2.2.2⟩
  rw [h.2.2.2.2.1]
  rfl

/-- C6.  Order totals: every snapshot line's total is `round2` of the
product's current unit price times the quantity, the subtotal is `round2`
of the sum of the per-line-rounded totals (and agrees with rounding after
every accumulation step), shipping fee and tax are the constant 0, and the
grand total is `round2 (subtotal + shippingFee + tax)`. -/
theorem order_totals :
    (∀ x : ℚ, calcShipping x = 0 ∧ calcTax x = 0)
  ∧ (∀ (u : ℕ) (b : CreateOrderBody) (db : DB) (o : Order),
      (createOrder u b db).1.body.order = some o →
        (∀ s ∈ o.items, s.lineTotal = round2 (s.price * (s.qty : ℚ))
            ∧ (findProduct db.products s.product).map Product.price = some s.price)
        ∧ o.subtotal = round2 ((o.items.map OrderItem.lineTotal).sum)
        ∧ (o.items.map OrderItem.lineTotal).foldl (fun acc t => round2 (acc + t)) 0
            = o.subtotal
        ∧ o.shippingFee = 0 ∧ o.tax = 0
        ∧ o.grandTotal = round2 (o.subtotal + o.shippingFee + o.tax)) := by
  refine ⟨fun x => ⟨rfl, rfl⟩, ?_⟩
  intro u b db o h
  obtain ⟨_h201, _hst, _hpay, _hcan, _huser,
    ⟨cart, _hc, rawSub, hbs, hsub, hfee, htax, hgd, _hstock⟩, _⟩ :=
    createOrder_order_some h
  obtain ⟨hmem, hsum⟩ := buildSnapshot_ok hbs
  have hcents : ∀ x ∈ o.items.map OrderItem.lineTotal, IsCents x := by
    intro x hx
    obtain ⟨s, hs, he⟩ := List.mem_map.mp hx
    obtain ⟨_, _, hC⟩ := hmem s hs
    exact he ▸ hC
  have hraw : IsCents rawSub := hsum ▸ isCents_sum hcents
  refine ⟨fun s hs => ⟨(hmem s hs).1, (hmem s hs).2.1⟩, ?_, ?_, hfee.trans rfl,
    htax.trans rfl, hgd⟩
  · rw [hsub, hsum]
  · rw [foldl_round2_eq_sum hcents IsCents.zero, zero_add, hsub,
      round2_eq_self hraw, hsum]

/-- Witness for C6 at the concrete scenario database. -/
theorem order_totals_witness :
    ((createOrder 7 {} dbA).1.body.order).map Order.shippingFee = some 0
    ∧ ((createOrder 7 {} dbA).1.body.order).map Order.tax = some 0 := by
  obtain ⟨o, ho⟩ : ∃ o, (createOrder 7 {} dbA).1.body.order = some o := ⟨_, rfl⟩
  have h := order_totals.2 7 {} dbA o ho
  rw [ho]
  exact ⟨by rw [Option.map_some', h.2.2.2.1], by rw [Option.map_some', h.2.2.2.2.1]⟩

theorem decAll_nonneg_at {items : List CartItem} :
    ∀ {ps ps2 : List Product}, decAll ps items = .ok ps2 →
      ∀ {j : ℕ} {s : ℤ}, stockOf ps j = some s → 0 ≤ s →
        ∃ s2, stockOf ps2 j = some s2 ∧ 0 ≤ s2 := by
  induction items with
  | nil =>
    intro ps ps2 h j s hs hpos
    simp only [decAll, Except.ok.injEq] at h
    exact ⟨s, h ▸ hs, hpos⟩
  | cons it rest ih =>
    intro ps ps2 h j s hs hpos
    rw [decAll] at h
    by_cases hcnt : (decOne ps it.product it.qty).2 = 1
    · rw [if_pos hcnt] at h
      have hmid := stockOf_decOne hcnt j
      by_cases hj : j = it.product
      · subst hj
        rw [if_pos rfl, hs] at hmid
        simp only [Option.map_some'] at hmid
        obtain ⟨p, hp, hle, _⟩ := decOne_modified hcnt
        have hps : p.stock = s := by
          rw [stockOf, hp] at hs
          simpa using hs
        refine ih h hmid ?_
        rw [hps] at hle
        omega
      · rw [if_neg hj, hs] at hmid
        exact ih h hmid hpos
    · rw [if_neg hcnt] at h
      exact absurd h (by simp)

theorem createOrder_nonneg_at (u : ℕ) (b : CreateOrderBody) (db : DB) {j : ℕ} {s : ℤ}
    (hs : stockOf db.products j = some s) (hpos : 0 ≤ s) :
    ∃ s2, stockOf (createOrder u b db).2.products j = some s2 ∧ 0 ≤ s2 := by
  cases hc : findCart db.carts u with
  | none => rw [createOrder_noCart_eq hc]; exact ⟨s, hs, hpos⟩
  | some cart =>
    by_cases he : cart.items.length = 0
    · rw [createOrder_emptyCart_eq hc he]; exact ⟨s, hs, hpos⟩
    · cases hbs : buildSnapshot db.products cart.items with
      | error r => rw [createOrder_badSnapshot_eq hc he hbs]; exact ⟨s, hs, hpos⟩
      | ok pr =>
        obtain ⟨snap, rawSub⟩ := pr
        cases hdec : decAll db.products cart.items with
        | error s3 => rw [createOrder_conflict_eq hc he hbs hdec]; exact ⟨s, hs, hpos⟩
        | ok ps2 =>
          rw [createOrder_success_eq hc he hbs hdec]
          exact decAll_nonneg_at hdec hs hpos

theorem createOrder_preserves_nonneg (u : ℕ) (b : CreateOrderBody) (db : DB)
    (h : stocksNonneg db) : stocksNonneg (createOrder u b db).2 := by
  cases hc : findCart db.carts u with
  | none => rw [createOrder_noCart_eq hc]; exact h
  | some cart =>
    by_cases he : cart.items.length = 0
    · rw [createOrder_emptyCart_eq hc he]; exact h
    · cases hbs : buildSnapshot db.products cart.items with
      | error r => rw [createOrder_badSnapshot_eq hc he hbs]; exact h
      | ok pr =>
        obtain ⟨snap, rawSub⟩ := pr
        cases hdec : decAll db.products cart.items with
        | error s => rw [createOrder_conflict_eq hc he hbs hdec]; exact h
        | ok ps2 =>
          rw [createOrder_success_eq hc he hbs hdec]
          exact decAll_ok_nonneg hdec h

theorem createOrder_stock_le (u : ℕ) (b : CreateOrderBody) (db : DB) (j : ℕ) (s2 : ℤ)
    (h : stockOf (createOrder u b db).2.products j = some s2) :
    ∃ s1, stockOf db.products j = some s1 ∧ s2 ≤ s1 := by
  cases hc : findCart db.carts u with
  | none => rw [createOrder_noCart_eq hc] at h; exact ⟨s2, h, le_refl s2⟩
  | some cart =>
    by_cases he : cart.items.length = 0
    · rw [createOrder_emptyCart_eq hc he] at h; exact ⟨s2, h, le_refl s2⟩
    · cases hbs : buildSnapshot db.products cart.items with
      | error r =>
        rw [createOrder_badSnapshot_eq hc he hbs] at h
        exact ⟨s2, h, le_refl s2⟩
      | ok pr =>
        obtain ⟨snap, rawSub⟩ := pr
        cases hdec : decAll db.products cart.items with
        | error s =>
          rw [createOrder_conflict_eq hc he hbs hdec] at h
          exact ⟨s2, h, le_refl s2⟩
        | ok ps2 =>
          rw [createOrder_success_eq hc he hbs hdec] at h
          have this := decAll_ok_stockOf hdec j
          have h2 : stockOf ps2 j = some s2 := h
          rw [h2] at this
          cases ho : stockOf db.products j with
          | none => rw [ho] at this; simp at this
          | some s1 =>
            rw [ho] at this
            simp only [Option.map_some', Option.some.injEq] at this
            refine ⟨s1, rfl, ?_⟩
            omega

/-- C2.  No oversell: the conditional decrement modifies a record only when
current stock covers the requested quantity; a failed decrement aborts the
checkout as a 500 naming the offending product's slug and leaves the
database unchanged; and across any sequence of checkouts, stocks that start
non-negative stay non-negative and never rise, so the total of successful
decrements never exceeds the initial stock. -/
theorem no_oversell :
    (∀ (ps : List Product) (i q : ℕ), (decOne ps i q).2 = 1 →
        ∃ p, findProduct ps i = some p ∧ (q : ℤ) ≤ p.stock)
  ∧ (∀ (u : ℕ) (b : CreateOrderBody) (db : DB),
      (createOrder u b db).1.status = 500 →
        (createOrder u b db).2 = db
        ∧ ∃ cart, findCart db.carts u = some cart
            ∧ ∃ it ∈ cart.items,
                (createOrder u b db).1.body.message
                  = some ("Stock update failed for "
                      ++ ((findProduct db.products it.product).map Product.slug).getD ""))
  ∧ (∀ (reqs : List (ℕ × CreateOrderBody)) (db : DB),
      stocksNonneg db → stocksNonneg (runCheckouts reqs db))
  ∧ (∀ (reqs : List (ℕ × CreateOrderBody)) (db : DB) (j : ℕ) (s2 : ℤ),
      stockOf (runCheckouts reqs db).products j = some s2 →
        ∃ s1, stockOf db.products j = some s1 ∧ s2 ≤ s1)
  ∧ (∀ (reqs : List (ℕ × CreateOrderBody)) (db : DB) (j : ℕ) (s : ℤ),
      stockOf db.products j = some s → 0 ≤ s →
        ∃ s2, stockOf (runCheckouts reqs db).products j = some s2 ∧ 0 ≤ s2) := by
  refine ⟨?_, ?_, ?_, ?_, ?_⟩
  · intro ps i q h
    obtain ⟨p, hp, hle, _⟩ := decOne_modified h
    exact ⟨p, hp, hle⟩
  · intro u b db h500
    cases hc : findCart db.carts u with
    | none => rw [createOrder_noCart_eq hc] at h500; simp at h500
    | some cart =>
      by_cases he : cart.items.length = 0
      · rw [createOrder_emptyCart_eq hc he] at h500; simp at h500
      · cases hbs : buildSnapshot db.products cart.items with
        | error r =>
          rw [createOrder_badSnapshot_eq hc he hbs] at h500
          have := (buildSnapshot_error hbs).1
          rw [show (r, db).1.status = r.status from rfl] at h500
          omega
        | ok pr =>
          obtain ⟨snap, rawSub⟩ := pr
          cases hdec : decAll db.products cart.items with
          | error s =>
            rw [createOrder_conflict_eq hc he hbs hdec]
            obtain ⟨it, hmem, hs⟩ := decAll_error_mem hdec
            exact ⟨rfl, cart, rfl, it, hmem, by rw [hs]⟩
          | ok ps2 =>
            rw [createOrder_success_eq hc he hbs hdec] at h500
            simp at h500
  · intro reqs
    induction reqs with
    | nil => intro db h; exact h
    | cons r rest ih =>
      intro db h
      obtain ⟨u, b⟩ := r
      exact ih _ (createOrder_preserves_nonneg u b db h)
  · intro reqs
    induction reqs with
    | nil => intro db j s2 h; exact ⟨s2, h, le_refl s2⟩
    | cons r rest ih =>
      intro db j s2 h
      obtain ⟨u, b⟩ := r
      obtain ⟨sm, hsm, hle1⟩ := ih (createOrder u b db).2 j s2 h
      obtain ⟨s1, hs1, hle2⟩ := createOrder_stock_le u b db j sm hsm
      exact ⟨s1, hs1, le_trans hle1 hle2⟩
  · intro reqs
    induction reqs with
    | nil => intro db j s hs hpos; exact ⟨s, hs, hpos⟩
    | cons r rest ih =>
      intro db j s hs hpos
      obtain ⟨u, b⟩ := r
      obtain ⟨sm, hsm, hposm⟩ := createOrder_nonneg_at u b db hs hpos
      exact ih (createOrder u b db).2 j sm hsm hposm

/-- Witness for C2: one checkout against the scenario database keeps all
stocks non-negative, and the conditional decrement that it performs had
sufficient stock behind it. -/
theorem no_oversell_witness :
    stocksNonneg (runCheckouts [(7, {})] dbA)
    ∧ (findProduct dbA.products 1).isSome = true := by
  constructor
  · refine no_oversell.2.2.1 [(7, {})] dbA ?_
    intro p hp
    simp only [dbA] at hp
    rw [List.mem_singleton] at hp
    subst hp
    decide
  · obtain ⟨p, hp, _⟩ := no_oversell.1 dbA.products 1 2 rfl
    rw [hp]
    rfl

/-- C8.  Pre-transaction validation mutates nothing: an absent or empty
cart yields 400 "Cart is empty" with the database unchanged; any cart line
whose product is missing or inactive, or whose quantity exceeds current
stock, yields a 400 whose message is the unavailable-product or
insufficient-stock message, again with no mutation; and the concrete
stock-1/qty-2 scenario fails exactly with "Insufficient stock for b". -/
theorem validation_no_mutation :
    (∀ (u : ℕ) (b : CreateOrderBody) (db : DB),
        findCart db.carts u = none →
          createOrder u b db
            = ({ status := 400, body := { message := some "Cart is empty" } }, db))
  ∧ (∀ (u : ℕ) (b : CreateOrderBody) (db : DB) (cart : Cart),
        findCart db.carts u = some cart → cart.items.length = 0 →
          createOrder u b db
            = ({ status := 400, body := { message := some "Cart is empty" } }, db))
  ∧ (∀ (u : ℕ) (b : CreateOrderBody) (db : DB) (cart : Cart),
        findCart db.carts u = some cart → ¬ cart.items.length = 0 →
        (∃ it ∈ cart.items, findProduct db.products it.product = none
            ∨ ∃ p, findProduct db.products it.product = some p
                ∧ (p.isActive = false ∨ p.stock < (it.qty : ℤ))) →
          (createOrder u b db).2 = db
          ∧ (createOrder u b db).1.status = 400
          ∧ ((createOrder u b db).1.body.message = some "Product unavailable in cart"
              ∨ ∃ sl, (createOrder u b db).1.body.message
                  = some ("Insufficient stock for " ++ sl)))
  ∧ createOrder 8 {} dbB
      = ({ status := 400, body := { message := some "Insufficient stock for b" } }, dbB) := by
  refine ⟨?_, ?_, ?_, ?_⟩
  · intro u b db hc
    exact createOrder_noCart_eq hc
  · intro u b db cart hc he
    exact createOrder_emptyCart_eq hc he
  · intro u b db cart hc he hbad
    obtain ⟨r, hr⟩ := buildSnapshot_error_of_bad hbad
    rw [createOrder_badSnapshot_eq hc he hr]
    obtain ⟨h400, hmsg, _⟩ := buildSnapshot_error hr
    exact ⟨rfl, h400, hmsg⟩
  · rfl

/-- Witness for C8 at the concrete insufficient-stock database. -/
theorem validation_no_mutation_witness :
    (createOrder 8 {} dbB).2 = dbB ∧ (createOrder 8 {} dbB).1.status = 400 := by
  have h := validation_no_mutation.2.2.1 8 {} dbB ⟨8, [⟨2, 2⟩]⟩ rfl (by decide)
    ⟨⟨2, 2⟩, by simp, Or.inr ⟨productB, rfl, Or.inr (by decide)⟩⟩
  exact ⟨h.1, h.2.1⟩

/-- C7.  Price immutability: the admin product update (with the external
`uniqueSlug` and `resolveCategoryRefs` collaborators abstracted as
parameters) never touches the orders collection, so every persisted order
keeps its snapshot prices, line totals, subtotal and grand total verbatim
no matter how a referenced product's price is changed. -/
theorem price_immutability :
    ∀ (uniq : String → ℕ → String)
      (resolveRefs : Option String → Option String → Except String (Option ℕ × Option ℕ))
      (slug : String) (d : UpdateProductBody) (db : DB),
      (updateProduct uniq resolveRefs slug d db).2.orders = db.orders
      ∧ (updateProduct uniq resolveRefs slug d db).2.carts = db.carts
      ∧ ∀ o ∈ db.orders, o ∈ (updateProduct uniq resolveRefs slug d db).2.orders := by
  intro uniq rr slug d db
  cases hf : findProductBySlug db.products slug with
  | none => simp [updateProduct, hf]
  | some current =>
    by_cases hcat : d.categorySlug ≠ none ∨ d.subcategorySlug ≠ none
    · cases hr : rr d.categorySlug d.subcategorySlug with
      | error msg => simp [updateProduct, hf, hcat, hr]
      | ok pr =>
        obtain ⟨ci, si⟩ := pr
        simp [updateProduct, hf, hcat, hr]
    · simp [updateProduct, hf, hcat]

/-- Witness for C7: a price change on product "a" leaves the order
collection of `dbC` untouched. -/
theorem price_immutability_witness :
    (updateProduct (fun s _ => s) (fun _ _ => .ok (none, none)) "a"
        { price := some 99 } dbC).2.orders = dbC.orders
    ∧ orderA ∈ (updateProduct (fun s _ => s) (fun _ _ => .ok (none, none)) "a"
        { price := some 99 } dbC).2.orders := by
  have h := price_immutability (fun s _ => s) (fun _ _ => .ok (none, none)) "a"
    { price := some 99 } dbC
  exact ⟨h.1, h.2.2 orderA (by simp [dbC])⟩

/-! ### Case characterizations of `cancelMyOrder` and `updateOrderStatus` -/

theorem cancel_notFound_eq {req : ℕ} {role : String} {oid now : ℕ} {db : DB}
    (ho : findOrder db.orders oid = none) :
    cancelMyOrder req role oid now db
      = ({ status := 404, body := { message := some "Not found" } }, db) := by
  simp only [cancelMyOrder, ho]

theorem cancel_forbidden_eq {req : ℕ} {role : String} {oid now : ℕ} {db : DB} {o : Order}
    (ho : findOrder db.orders oid = some o)
    (hu : ¬ o.user = req) (hr : ¬ role = "admin") :
    cancelMyOrder req role oid now db
      = ({ status := 403, body := { message := some "Forbidden" } }, db) := by
  have hb : (!(o.user == req) && !(role == "admin")) = true := by simp [hu, hr]
  simp [cancelMyOrder, ho, hb]

theorem cancel_already_eq {req : ℕ} {role : String} {oid now : ℕ} {db : DB} {o : Order}
    (ho : findOrder db.orders oid = some o)
    (hauth : o.user = req ∨ role = "admin") (hcan : o.cancelled = true) :
    cancelMyOrder req role oid now db
      = ({ status := 400, body := { message := some "Already cancelled" } }, db) := by
  have hb : (!(o.user == req) && !(role == "admin")) = false := by
    rcases hauth with h | h <;> simp [h]
  simp [cancelMyOrder, ho, hb, hcan]

theorem cancel_notAllowed_eq {req : ℕ} {role : String} {oid now : ℕ} {db : DB} {o : Order}
    (ho : findOrder db.orders oid = some o)
    (hauth : o.user = req ∨ role = "admin") (hcan : o.cancelled = false)
    (helig : ¬ (o.paymentStatus = .unpaid ∧ o.status = .pending)) :
    cancelMyOrder req role oid now db
      = ({ status := 400,
           body := { message := some "Cannot cancel after payment or processing" } }, db) := by
  have hb : (!(o.user == req) && !(role == "admin")) = false := by
    rcases hauth with h | h <;> simp [h]
  have hb2 : (!(o.paymentStatus == .unpaid) || !(o.status == .pending)) = true := by
    rcases not_and_or.mp helig with h | h <;> simp [h]
  simp [cancelMyOrder, ho, hb, hcan, hb2]

theorem cancel_success_eq {req : ℕ} {role : String} {oid now : ℕ} {db : DB} {o : Order}
    (ho : findOrder db.orders oid = some o)
    (hauth : o.user = req ∨ role = "admin") (hcan : o.cancelled = false)
    (hpay : o.paymentStatus = .unpaid) (hst : o.status = .pending) :
    cancelMyOrder req role oid now db
      = ({ status := 200, body := { ok := some true } },
         { db with products := incAll db.products o.items,
                   orders := replaceOrder db.orders oid
                     { o with cancelled := true, cancelledAt := some now } }) := by
  have hb : (!(o.user == req) && !(role == "admin")) = false := by
    rcases hauth with h | h <;> simp [h]
  have hb2 : (!(o.paymentStatus == .unpaid) || !(o.status == .pending)) = false := by
    simp [hpay, hst]
  simp [cancelMyOrder, ho, hb, hcan, hb2]

/-- C4.  Cancellation symmetry: for an eligible order (found, authorized,
not yet cancelled, unpaid and pending), cancellation returns 200, adds back
to every product's stock exactly the quantity recorded in the order's
snapshot — unconditionally, with no hypothesis on current stock — and saves
the order with `cancelled = true` and `cancelledAt` set; moreover every
cancellation request either succeeds with 200 or leaves the database
unchanged. -/
theorem cancel_restores_stock :
    (∀ (req : ℕ) (role : String) (oid now : ℕ) (db : DB) (o : Order),
        findOrder db.orders oid = some o →
        (o.user = req ∨ role = "admin") →
        o.cancelled = false →
        o.paymentStatus = .unpaid →
        o.status = .pending →
          (cancelMyOrder req role oid now db).1.status = 200
          ∧ (cancelMyOrder req role oid now db).1.body.ok = some true
          ∧ (∀ j, stockOf (cancelMyOrder req role oid now db).2.products j
              = (stockOf db.products j).map (fun s => s + (orderQtySum o.items j : ℤ)))
          ∧ findOrder (cancelMyOrder req role oid now db).2.orders oid
              = some { o with cancelled := true, cancelledAt := some now }
          ∧ (cancelMyOrder req role oid now db).2.carts = db.carts)
  ∧ (∀ (req : ℕ) (role : String) (oid now : ℕ) (db : DB),
      (cancelMyOrder req role oid now db).1.status = 200
      ∨ (cancelMyOrder req role oid now db).2 = db) := by
  constructor
  · intro req role oid now db o ho hauth hcan hpay hst
    rw [cancel_success_eq ho hauth hcan hpay hst]
    refine ⟨rfl, rfl, ?_, ?_, rfl⟩
    · intro j
      exact stockOf_incAll db.products j
    · refine findOrder_replaceOrder ho _ ?_
      exact (show o.id = oid from findOrder_id ho)
  · intro req role oid now db
    cases ho : findOrder db.orders oid with
    | none =>
      right
      rw [cancel_notFound_eq ho]
    | some o =>
      by_cases hauth : o.user = req ∨ role = "admin"
      · by_cases hcan : o.cancelled = true
        · right
          rw [cancel_already_eq ho hauth hcan]
        · have hcan2 : o.cancelled = false := by
            revert hcan; cases o.cancelled <;> simp
          by_cases helig : o.paymentStatus = .unpaid ∧ o.status = .pending
          · left
            rw [cancel_success_eq ho hauth hcan2 helig.1 helig.2]
          · right
            rw [cancel_notAllowed_eq ho hauth hcan2 helig]
      · right
        have hu : ¬ o.user = req := fun h => hauth (Or.inl h)
        have hr : ¬ role = "admin" := fun h => hauth (Or.inr h)
        rw [cancel_forbidden_eq ho hu hr]

/-- Witness for C4: the owner cancels `orderA`; product A's stock rises
from 5 to 7 and the saved order is cancelled. -/
theorem cancel_restores_stock_witness :
    (cancelMyOrder 7 "user" 0 5 dbC).1.status = 200
    ∧ stockOf (cancelMyOrder 7 "user" 0 5 dbC).2.products 1 = some 7
    ∧ (findOrder (cancelMyOrder 7 "user" 0 5 dbC).2.orders 0).map Order.cancelled
        = some true := by
  have h := cancel_restores_stock.1 7 "user" 0 5 dbC orderA rfl (Or.inl rfl) rfl rfl rfl
  refine ⟨h.1, ?_, ?_⟩
  · rw [h.2.2.1 1]
    rfl
  · rw [h.2.2.2.1]
    rfl

/-- C5.  Cancellation eligibility: a requester who is neither the owner nor
an administrator gets 403 Forbidden; an already-cancelled order gets 400
"Already cancelled" (administrators included); an uncancelled order that is
not both unpaid and pending gets 400 "Cannot cancel after payment or
processing" (administrators included); an unknown order id gets 404.  In
every such case the database is unchanged. -/
theorem cancel_eligibility :
    (∀ (req : ℕ) (role : String) (oid now : ℕ) (db : DB) (o : Order),
        findOrder db.orders oid = some o →
        ¬ o.user = req → ¬ role = "admin" →
          cancelMyOrder req role oid now db
            = ({ status := 403, body := { message := some "Forbidden" } }, db))
  ∧ (∀ (req : ℕ) (role : String) (oid now : ℕ) (db : DB) (o : Order),
        findOrder db.orders oid = some o →
        (o.user = req ∨ role = "admin") → o.cancelled = true →
          cancelMyOrder req role oid now db
            = ({ status := 400, body := { message := some "Already cancelled" } }, db))
  ∧ (∀ (req : ℕ) (role : String) (oid now : ℕ) (db : DB) (o : Order),
        findOrder db.orders oid = some o →
        (o.user = req ∨ role = "admin") → o.cancelled = false →
        ¬ (o.paymentStatus = .unpaid ∧ o.status = .pending) →
          cancelMyOrder req role oid now db
            = ({ status := 400,
                 body := { message := some "Cannot cancel after payment or processing" } }, db))
  ∧ (∀ (req : ℕ) (role : String) (oid now : ℕ) (db : DB),
        findOrder db.orders oid = none →
          cancelMyOrder req role oid now db
            = ({ status := 404, body := { message := some "Not found" } }, db)) := by
  refine ⟨?_, ?_, ?_, ?_⟩
  · intro req role oid now db o ho hu hr
    exact cancel_forbidden_eq ho hu hr
  · intro req role oid now db o ho hauth hcan
    exact cancel_already_eq ho hauth hcan
  · intro req role oid now db o ho hauth hcan helig
    exact cancel_notAllowed_eq ho hauth hcan helig
  · intro req role oid now db ho
    exact cancel_notFound_eq ho

/-- Witness for C5: an administrator's second cancellation attempt on the
already-cancelled `orderD` is rejected with 400. -/
theorem cancel_eligibility_witness :
    cancelMyOrder 9 "admin" 3 0 dbD
      = ({ status := 400, body := { message := some "Already cancelled" } }, dbD) :=
  cancel_eligibility.2.1 9 "admin" 3 0 dbD orderD rfl (Or.inr rfl) rfl

theorem applyStatusBody_spec (o : Order) (d : UpdateStatusBody) :
    (applyStatusBody o d).status = d.status.getD o.status
    ∧ (applyStatusBody o d).paymentStatus = d.paymentStatus.getD o.paymentStatus
    ∧ (applyStatusBody o d).cancelled = o.cancelled
    ∧ (applyStatusBody o d).cancelledAt = o.cancelledAt
    ∧ (applyStatusBody o d).items = o.items
    ∧ (applyStatusBody o d).id = o.id := by
  cases ds : d.status <;> cases dp : d.paymentStatus <;> simp [applyStatusBody, ds, dp]

theorem updateOrderStatus_found_eq {oid : ℕ} {d : UpdateStatusBody} {db : DB} {o : Order}
    (ho : findOrder db.orders oid = some o) :
    updateOrderStatus oid d db
      = ({ status := 200, body := { order := some (applyStatusBody o d) } },
         { db with orders := replaceOrder db.orders oid (applyStatusBody o d) }) := by
  simp only [updateOrderStatus, ho]

/-- C10.  `updateOrderStatus` is unconditionally permissive: for any found
order and any combination of new enum values it returns 200 and saves the
order with `status` and `paymentStatus` overwritten independently, with no
reachability check and without consulting `cancelled` (which is preserved,
as are the line items), and it never touches products or carts. -/
theorem update_status_permissive :
    (∀ (oid : ℕ) (d : UpdateStatusBody) (db : DB) (o : Order),
        findOrder db.orders oid = some o →
          (updateOrderStatus oid d db).1.status = 200
          ∧ findOrder (updateOrderStatus oid d db).2.orders oid
              = some (applyStatusBody o d)
          ∧ (applyStatusBody o d).status = d.status.getD o.status
          ∧ (applyStatusBody o d).paymentStatus = d.paymentStatus.getD o.paymentStatus
          ∧ (applyStatusBody o d).cancelled = o.cancelled
          ∧ (applyStatusBody o d).cancelledAt = o.cancelledAt
          ∧ (applyStatusBody o d).items = o.items
          ∧ (updateOrderStatus oid d db).2.products = db.products
          ∧ (updateOrderStatus oid d db).2.carts = db.carts)
  ∧ (∀ (oid : ℕ) (d : UpdateStatusBody) (db : DB),
        findOrder db.orders oid = none →
          updateOrderStatus oid d db
            = ({ status := 404, body := { message := some "Not found" } }, db)) := by
  constructor
  · intro oid d db o ho
    rw [updateOrderStatus_found_eq ho]
    obtain ⟨h1, h2, h3, h4, h5, h6⟩ := applyStatusBody_spec o d
    refine ⟨rfl, ?_, h1, h2, h3, h4, h5, rfl, rfl⟩
    exact findOrder_replaceOrder ho _ (h6.trans (findOrder_id ho))
  · intro oid d db ho
    simp only [updateOrderStatus, ho]

/-- Witness for C10: on the cancelled, delivered, paid `orderD`, an admin
resets status to `pending` while marking it `paid`; the update is accepted,
`cancelled` stays true, and no stock changes. -/
theorem update_status_permissive_witness :
    (updateOrderStatus 3 { status := some .pending, paymentStatus := some .paid } dbD).1.status
        = 200
    ∧ (findOrder (updateOrderStatus 3
          { status := some .pending, paymentStatus := some .paid } dbD).2.orders 3).map
        Order.cancelled = some true
    ∧ (findOrder (updateOrderStatus 3
          { status := some .pending, paymentStatus := some .paid } dbD).2.orders 3).map
        Order.status = some OrderStatus.pending
    ∧ (updateOrderStatus 3
        { status := some .pending, paymentStatus := some .paid } dbD).2.products
        = dbD.products := by
  have h := update_status_permissive.1 3
    { status := some .pending, paymentStatus := some .paid } dbD orderD rfl
  refine ⟨h.1, ?_, ?_, h.2.2.2.2.2.2.2.1⟩
  · rw [h.2.1, Option.map_some', h.2.2.2.2.1]
    rfl
  · rw [h.2.1, Option.map_some', h.2.2.1]
    rfl

/-- C9 counterexample: a `ZodError` thrown by schema validation carries no
`status` property, so the error middleware surfaces it with HTTP status
500, not 400 as claimed. -/
theorem validation_error_counterexample :
    (errorHandler (zodError "Expected object, received string at shippingAddress")).status = 500
    ∧ ¬ (errorHandler
          (zodError "Expected object, received string at shippingAddress")).status = 400 := by
  constructor
  · rfl
  · intro h
    simp [errorHandler, zodError] at h

/-- C9 (amended).  A request body that fails schema validation throws a
`ZodError` with the field detail in its message and no `status` property;
the generic error handler therefore answers with HTTP status 500 (not 400)
and a structured `{status, message}` body carrying the detail, while
responses issued directly by `createOrder` carry no `status` field in their
body. -/
theorem validation_error_amended :
    (∀ detail : String, ¬ detail = "" →
        (errorHandler (zodError detail)).status = 500
        ∧ (errorHandler (zodError detail)).body.status = some 500
        ∧ (errorHandler (zodError detail)).body.message = some detail)
  ∧ (∀ e : ErrObj, e.status = none → (errorHandler e).status = 500)
  ∧ (∀ (u : ℕ) (b : CreateOrderBody) (db : DB),
      (createOrder u b db).1.body.status = none) := by
  refine ⟨?_, ?_, ?_⟩
  · intro detail hne
    refine ⟨rfl, rfl, ?_⟩
    simp [errorHandler, zodError, hne]
  · intro e he
    simp [errorHandler, he]
  · intro u b db
    cases hc : findCart db.carts u with
    | none => rw [createOrder_noCart_eq hc]
    | some cart =>
      by_cases he : cart.items.length = 0
      · rw [createOrder_emptyCart_eq hc he]
      · cases hbs : buildSnapshot db.products cart.items with
        | error r =>
          rw [createOrder_badSnapshot_eq hc he hbs]
          exact (buildSnapshot_error hbs).2.2.2
        | ok pr =>
          obtain ⟨snap, rawSub⟩ := pr
          cases hdec : decAll db.products cart.items with
          | error s => rw [createOrder_conflict_eq hc he hbs hdec]
          | ok ps2 => rw [createOrder_success_eq hc he hbs hdec]

/-- Witness for the amended C9 at a concrete validation message. -/
theorem validation_error_amended_witness :
    (errorHandler (zodError "Required at paymentMethod")).status = 500
    ∧ (errorHandler (zodError "Required at paymentMethod")).body.message
        = some "Required at paymentMethod"
    ∧ (createOrder 7 {} dbA).1.body.status = none := by
  have h := validation_error_amended.1 "Required at paymentMethod" (by decide)
  exact ⟨h.1, h.2.2, validation_error_amended.2.2 7 {} dbA⟩

end Qtends
